import Mathlib

/-!
Verification of the iroh-mesh service mesh (src/iroh-mesh/src).

We shallowly embed the data model (`lib.rs`), the cluster registry
(`discovery.rs`, `DiscoveryManager`), the TCP proxy connection handler
(`proxy.rs`, `MeshProxy::handle_tcp_connection` / `extract_host_header` /
`MeshProtocolHandler::accept`) and the agent registration tick
(`agent.rs`, `MeshAgent::start_cluster_registration`).

The `HashMap<ClusterId, ClusterInfo>` inside `DiscoveryManager` is modelled
as an association list with at most one entry per key: `hmInsert` replaces
an existing entry in place (as `HashMap::insert` does, which keeps the key's
position in the table) and appends an absent key.  Rust's `HashMap` iteration
order is unspecified; the model fixes it as first-insertion order.  The async
wrappers (`Arc<RwLock<..>>`, `.await`) serialize each operation, so every
operation is a pure function of the map's contents.
-/

deriving instance DecidableEq for Except

namespace IrohMesh

/-- `ClusterId(pub String)` from lib.rs. -/
abbrev ClusterId := String

/-- `ServiceInfo` from lib.rs: name, namespace, port, protocol.
`namespace` is a Lean keyword, hence the field name `namespace_`. -/
structure ServiceInfo where
  name : String
  namespace_ : String
  port : Nat
  protocol : String
deriving DecidableEq, Repr

/-- `ClusterInfo` from lib.rs.  `NodeId` is an opaque cryptographic identity;
we model it as a `Nat`.  `direct_addresses : Vec<SocketAddr>` is modelled with
opaque address strings. -/
structure ClusterInfo where
  id : ClusterId
  node_id : Nat
  relay_url : Option String
  direct_addresses : List String
  services : List ServiceInfo
deriving DecidableEq, Repr

/-- The `Error` enum from error.rs.  The `#[from]` payloads (iroh, kube, io,
serde errors) are opaque; we keep their display message. -/
inductive Error where
  | Iroh (msg : String)
  | Kube (msg : String)
  | Io (msg : String)
  | Serde (msg : String)
  | Config (msg : String)
  | Network (msg : String)
  | Discovery (msg : String)
  | Proxy (msg : String)
  | Agent (msg : String)
deriving DecidableEq, Repr

/-- Contents of the `HashMap<ClusterId, ClusterInfo>` held in
`DiscoveryManager.clusters`, as an association list. -/
abbrev Registry := List (ClusterId × ClusterInfo)

/-- `HashMap::insert`: replace the entry for an existing key in place
(the key keeps its position), append an absent key. -/
def hmInsert (k : ClusterId) (v : ClusterInfo) : Registry → Registry
  | [] => [(k, v)]
  | (k', v') :: rest =>
      if k' = k then (k, v) :: rest else (k', v') :: hmInsert k v rest

/-- `HashMap::get`: the value stored at a key, if any. -/
def hmGet (k : ClusterId) : Registry → Option ClusterInfo
  | [] => none
  | (k', v') :: rest => if k' = k then some v' else hmGet k rest

/-- `HashMap::remove`: drop the entry for a key.  The map holds at most one
entry per key, so dropping every occurrence agrees with `HashMap::remove` on
all representable states. -/
def hmRemove (k : ClusterId) (r : Registry) : Registry :=
  r.filter (fun p => p.1 ≠ k)

/-- `DiscoveryManager::register_cluster` (discovery.rs:67-77):
`clusters.insert(cluster_info.id.clone(), cluster_info)`, then `Ok(())`. -/
def register_cluster (r : Registry) (cluster_info : ClusterInfo) :
    Registry × Except Error Unit :=
  (hmInsert cluster_info.id cluster_info r, .ok ())

/-- `DiscoveryManager::get_cluster_info` (discovery.rs:112-115):
`clusters.get(cluster_id).cloned()`. -/
def get_cluster_info (r : Registry) (cluster_id : ClusterId) :
    Option ClusterInfo :=
  hmGet cluster_id r

/-- `DiscoveryManager::list_clusters` (discovery.rs:118-121):
`clusters.values().cloned().collect()`. -/
def list_clusters (r : Registry) : List ClusterInfo :=
  r.map Prod.snd

/-- The inner-loop test of `find_service`:
`service.name == service_name && service.namespace == namespace`. -/
def service_matches (service : ServiceInfo)
    (service_name namespace_ : String) : Bool :=
  service.name == service_name && service.namespace_ == namespace_

/-- `DiscoveryManager::find_service` (discovery.rs:124-136): scan the map's
values in iteration order; return the first cluster one of whose services
matches, else `None`. -/
def find_service (r : Registry) (service_name namespace_ : String) :
    Option ClusterInfo :=
  match r with
  | [] => none
  | (_, cluster_info) :: rest =>
      if cluster_info.services.any
          (fun s => service_matches s service_name namespace_) then
        some cluster_info
      else
        find_service rest service_name namespace_

/-- `DiscoveryManager::update_cluster` (discovery.rs:139-143): same insert as
`register_cluster`, then `Ok(())`. -/
def update_cluster (r : Registry) (cluster_info : ClusterInfo) :
    Registry × Except Error Unit :=
  (hmInsert cluster_info.id cluster_info r, .ok ())

/-- `DiscoveryManager::remove_cluster` (discovery.rs:146-151):
`clusters.remove(cluster_id)`, then `Ok(())` (the removed value is
discarded; a missing key is not an error). -/
def remove_cluster (r : Registry) (cluster_id : ClusterId) :
    Registry × Except Error Unit :=
  (hmRemove cluster_id r, .ok ())

/-- One mutating call on the registry. -/
inductive RegistryOp where
  | register (info : ClusterInfo)
  | update (info : ClusterInfo)
  | remove (id : ClusterId)
deriving DecidableEq, Repr

/-- The key an operation affects. -/
def RegistryOp.key : RegistryOp → ClusterId
  | .register info => info.id
  | .update info => info.id
  | .remove id => id

/-- Apply one mutating call to the registry state. -/
def apply_op (r : Registry) : RegistryOp → Registry
  | .register info => (register_cluster r info).1
  | .update info => (update_cluster r info).1
  | .remove id => (remove_cluster r id).1

/-- Apply a sequence of mutating calls, oldest first. -/
def apply_ops (r : Registry) (ops : List RegistryOp) : Registry :=
  ops.foldl apply_op r

/-- The keys present in a registry state. -/
def registryKeys (r : Registry) : List ClusterId :=
  r.map Prod.fst

/-! ### MeshProxy (proxy.rs)

`handle_tcp_connection` reads once from the socket (up to 1024 bytes),
decodes the bytes with `String::from_utf8_lossy` and parses them with
`extract_host_header`.  We model the decoded contents of that first read
as a `String` (lossy decoding keeps every valid ASCII byte, so the
`host:`-detection below sees exactly the bytes the socket carried), and the
bytes written back to the socket as a `List String`. -/

/-- Strip one trailing carriage return, as Rust's `str::lines` does on every
line terminated by `"\r\n"`. -/
def stripCRChars (l : List Char) : List Char :=
  match l.getLast? with
  | some c => if c = '\r' then l.dropLast else l
  | none => l

/-- Accumulating splitter behind `rustLines`: `acc` holds the characters of
the line being scanned. -/
def rustLinesAux (acc : List Char) : List Char → List (List Char)
  | [] => if acc.isEmpty then [] else [acc]
  | c :: cs =>
      if c = '\n' then stripCRChars acc :: rustLinesAux [] cs
      else rustLinesAux (acc ++ [c]) cs

/-- Rust's `str::lines`: split on `'\n'`; a line terminated by `"\r\n"` loses
the `'\r'`; a final fragment without a terminator is kept as is (its `'\r'`,
if any, stays); a trailing terminator produces no empty final line. -/
def rustLines (s : String) : List String :=
  (rustLinesAux [] s.data).map List.asString

/-- Rust's `line.to_lowercase()`.  `Char.toLower` covers the ASCII range,
which is all the `host:` detection below distinguishes. -/
def toLowercase (s : String) : String :=
  (s.data.map Char.toLower).asString

/-- Rust's `line.splitn(2, ':').nth(1)`: everything after the first `':'`,
or `none` when the line has no `':'`. -/
def afterFirstColon : List Char → Option (List Char)
  | [] => none
  | c :: cs => if c = ':' then some cs else afterFirstColon cs

/-- Rust's `str::trim`: drop leading and trailing whitespace. -/
def trimChars (l : List Char) : List Char :=
  ((l.dropWhile Char.isWhitespace).reverse.dropWhile Char.isWhitespace).reverse

/-- The loop body of `extract_host_header` (proxy.rs:153-159): the first line
whose lowercasing starts with `"host:"` yields `Ok` of the trimmed text after
its first `':'`; with no such line the result is the proxy error. -/
def find_host_line : List String → Except Error String
  | [] => .error (.Proxy "No Host header found")
  | line :: rest =>
      if (toLowercase line).data.take 5 = "host:".data then
        match afterFirstColon line.data with
        | some host => .ok (trimChars host).asString
        | none => find_host_line rest
      else
        find_host_line rest

/-- `MeshProxy::extract_host_header` (proxy.rs:152-161). -/
def extract_host_header (request : String) : Except Error String :=
  find_host_line (rustLines request)

/-- The fixed response `handle_tcp_connection` writes after extracting a host
(proxy.rs:146). -/
def echoResponse : String :=
  "HTTP/1.1 200 OK\r\nContent-Length: 12\r\n\r\nHello, Mesh!"

/-- `MeshProxy::handle_tcp_connection` (proxy.rs:127-149) as a function of the
registry contents and of the first read: `n == 0` returns `Ok` writing
nothing; otherwise the host header is extracted (its error propagates via
`?`) and the fixed response is written.  The registry argument reflects the
handler's `self.discovery` field; the body never consults it. -/
def handle_tcp_connection (_r : Registry) (request : String) :
    Except Error (List String) :=
  if request = "" then
    .ok []
  else
    match extract_host_header request with
    | .error e => .error e
    | .ok _host => .ok [echoResponse]

/-! ### MeshProtocolHandler (proxy.rs:191-207)

`accept` reads the remote node id (an error there propagates), accepts one
bidirectional stream, copies the receive half to the send half with
`tokio::io::copy` and finishes the send half.  We model the receive half as
the list of chunks the copy loop reads, and record the bytes written to the
send half together with whether `finish` was called. -/

/-- What `accept` did with the one bidirectional stream. -/
structure AcceptOutcome where
  sent : List Nat
  finished : Bool
deriving DecidableEq, Repr

/-- The `tokio::io::copy` loop: write each chunk read from the receive half
to the send half, in order. -/
def copy_bytes (recv_chunks : List (List Nat)) : List Nat :=
  recv_chunks.foldl (fun acc c => acc ++ c) []

/-- `MeshProtocolHandler::accept` (proxy.rs:192-207): `none` for the remote
node id models a `remote_node_id()` failure, which `?` propagates before any
stream is accepted; otherwise the stream is echoed and finished. -/
def mesh_accept (remote_node_id : Option Nat)
    (recv_chunks : List (List Nat)) : Option AcceptOutcome :=
  match remote_node_id with
  | none => none
  | some _ => some { sent := copy_bytes recv_chunks, finished := true }

/-! ### MeshAgent registration (agent.rs:141-178)

Each 60s tick of `start_cluster_registration` calls
`discover_local_services`; on `Err` it logs and `continue`s, leaving the
registry untouched; on `Ok(services)` it builds the local `ClusterInfo`
(relay_url `None`, direct_addresses empty — the TODOs at agent.rs:166-167)
and calls `register_cluster`.  The tick's outcome is a pure function of the
registry state and of that discovery result. -/

/-- One tick of the registration loop. -/
def registration_tick (r : Registry) (cluster_id : ClusterId)
    (node_id : Nat) (discovered : Except Error (List ServiceInfo)) :
    Registry :=
  match discovered with
  | .error _ => r
  | .ok services =>
      (register_cluster r
        { id := cluster_id, node_id := node_id, relay_url := none,
          direct_addresses := [], services := services }).1

/-- The registration loop over a finite trace of discovery results, oldest
first: each iteration runs one tick and proceeds to the next — no result,
`Err` included, breaks out of the `loop`. -/
def registration_loop (r : Registry) (cluster_id : ClusterId)
    (node_id : Nat) (ticks : List (Except Error (List ServiceInfo))) :
    Registry :=
  ticks.foldl (fun acc t => registration_tick acc cluster_id node_id t) r

/-! ### Concrete data for witnesses and counterexamples -/

/-- A service advertised by both witness clusters. -/
def svcWeb : ServiceInfo :=
  { name := "web", namespace_ := "default", port := 80, protocol := "TCP" }

/-- A first witness cluster advertising `svcWeb`. -/
def infoA : ClusterInfo :=
  { id := "cluster-a", node_id := 1, relay_url := none,
    direct_addresses := [], services := [svcWeb] }

/-- A second, distinct witness cluster also advertising `svcWeb`. -/
def infoB : ClusterInfo :=
  { id := "cluster-b", node_id := 2, relay_url := none,
    direct_addresses := [], services := [svcWeb] }

/-! ### Lemmas about the registry map -/

theorem hmGet_hmInsert_self (k : ClusterId) (v : ClusterInfo) (r : Registry) :
    hmGet k (hmInsert k v r) = some v := by
  induction r with
  | nil => simp [hmInsert, hmGet]
  | cons p rest ih =>
      obtain ⟨k', v'⟩ := p
      by_cases h : k' = k
      · simp [hmInsert, hmGet, h]
      · simp [hmInsert, hmGet, h, ih]

theorem hmGet_hmInsert_ne (k j : ClusterId) (v : ClusterInfo) (r : Registry)
    (h : j ≠ k) : hmGet k (hmInsert j v r) = hmGet k r := by
  induction r with
  | nil => simp [hmInsert, hmGet, h]
  | cons p rest ih =>
      obtain ⟨k', v'⟩ := p
      by_cases hk : k' = j
      · subst hk
        simp [hmInsert, hmGet, h]
      · simp [hmInsert, hmGet, hk, ih]

theorem hmInsert_idem (k : ClusterId) (v : ClusterInfo) (r : Registry) :
    hmInsert k v (hmInsert k v r) = hmInsert k v r := by
  induction r with
  | nil => simp [hmInsert]
  | cons p rest ih =>
      obtain ⟨k', v'⟩ := p
      by_cases h : k' = k
      · simp [hmInsert, h]
      · simp [hmInsert, h, ih]

theorem hmGet_hmRemove_self (k : ClusterId) (r : Registry) :
    hmGet k (hmRemove k r) = none := by
  induction r with
  | nil => rfl
  | cons p rest ih =>
      obtain ⟨k', v'⟩ := p
      by_cases h : k' = k
      · simpa [hmRemove, List.filter_cons, h] using ih
      · simpa [hmRemove, List.filter_cons, hmGet, h] using ih

theorem hmGet_hmRemove_ne (k j : ClusterId) (r : Registry)
    (h : k ≠ j) : hmGet k (hmRemove j r) = hmGet k r := by
  induction r with
  | nil => rfl
  | cons p rest ih =>
      obtain ⟨k', v'⟩ := p
      by_cases hj : k' = j
      · subst hj
        have hk : k' ≠ k := fun hkk => h hkk.symm
        simpa [hmRemove, List.filter_cons, hmGet, hk] using ih
      · by_cases hk : k' = k
        · simp_all [hmRemove, List.filter_cons, hmGet, hj, hk, h]
        · simp_all [hmRemove, List.filter_cons, hmGet, hj, hk]

theorem registryKeys_hmInsert (k : ClusterId) (v : ClusterInfo)
    (r : Registry) :
    registryKeys (hmInsert k v r) =
      if k ∈ registryKeys r then registryKeys r else registryKeys r ++ [k] := by
  induction r with
  | nil => simp [hmInsert, registryKeys]
  | cons p rest ih =>
      obtain ⟨k', v'⟩ := p
      by_cases h : k' = k
      · subst h
        simp [hmInsert, registryKeys]
      · simp [hmInsert, registryKeys, h] at ih ⊢
        rw [ih]
        by_cases hmem : k ∈ List.map Prod.fst rest
        · simp [hmem]
        · simp [hmem, Ne.symm h]

theorem nodup_registryKeys_hmInsert (k : ClusterId) (v : ClusterInfo)
    (r : Registry) (hr : (registryKeys r).Nodup) :
    (registryKeys (hmInsert k v r)).Nodup := by
  rw [registryKeys_hmInsert]
  by_cases hmem : k ∈ registryKeys r
  · simpa [hmem] using hr
  · simp [hmem, List.nodup_append, hr]

theorem nodup_registryKeys_hmRemove (k : ClusterId) (r : Registry)
    (hr : (registryKeys r).Nodup) : (registryKeys (hmRemove k r)).Nodup := by
  have hsub : List.Sublist (registryKeys (hmRemove k r)) (registryKeys r) :=
    List.Sublist.map Prod.fst (List.filter_sublist r)
  exact hr.sublist hsub

theorem nodup_registryKeys_apply_op (r : Registry) (op : RegistryOp)
    (hr : (registryKeys r).Nodup) : (registryKeys (apply_op r op)).Nodup := by
  cases op with
  | register info =>
      exact nodup_registryKeys_hmInsert info.id info r hr
  | update info =>
      exact nodup_registryKeys_hmInsert info.id info r hr
  | remove id =>
      exact nodup_registryKeys_hmRemove id r hr

theorem nodup_registryKeys_apply_ops (ops : List RegistryOp) :
    ∀ r : Registry, (registryKeys r).Nodup →
      (registryKeys (apply_ops r ops)).Nodup := by
  induction ops with
  | nil => intro r hr; exact hr
  | cons op rest ih =>
      intro r hr
      exact ih (apply_op r op) (nodup_registryKeys_apply_op r op hr)

theorem hmGet_apply_op_ne (k : ClusterId) (op : RegistryOp) (r : Registry)
    (h : op.key ≠ k) : hmGet k (apply_op r op) = hmGet k r := by
  cases op with
  | register info =>
      exact hmGet_hmInsert_ne k info.id info r h
  | update info =>
      exact hmGet_hmInsert_ne k info.id info r h
  | remove id =>
      exact hmGet_hmRemove_ne k id r (fun hk => h hk.symm)

theorem hmGet_apply_ops_ne (k : ClusterId) (ops : List RegistryOp) :
    ∀ r : Registry, (∀ o ∈ ops, o.key ≠ k) →
      hmGet k (apply_ops r ops) = hmGet k r := by
  induction ops with
  | nil => intro r _; rfl
  | cons op rest ih =>
      intro r h
      have h1 : op.key ≠ k := h op (List.mem_cons_self op rest)
      have h2 : ∀ o ∈ rest, o.key ≠ k := fun o ho => h o (List.mem_cons_of_mem op ho)
      calc hmGet k (apply_ops (apply_op r op) rest)
      _ = hmGet k (apply_op r op) := ih (apply_op r op) h2
      _ = hmGet k r := hmGet_apply_op_ne k op r h1

theorem apply_ops_append (r : Registry) (l1 l2 : List RegistryOp) :
    apply_ops r (l1 ++ l2) = apply_ops (apply_ops r l1) l2 :=
  List.foldl_append apply_op r l1 l2

/-! ### Lemmas about find_service, the copy loop and host parsing -/

theorem find_service_eq_findFirst (r : Registry)
    (service_name namespace_ : String) :
    find_service r service_name namespace_ =
      (r.find? (fun p => p.2.services.any
        (fun s => service_matches s service_name namespace_))).map Prod.snd := by
  induction r with
  | nil => rfl
  | cons q rest ih =>
      obtain ⟨k, info⟩ := q
      by_cases h :
          (info.services.any
            (fun s => service_matches s service_name namespace_)) = true
      · simp [find_service, h, List.find?_cons_of_pos]
      · simp [find_service, h, List.find?_cons_of_neg, ih]

theorem copy_bytes_eq_join (recv_chunks : List (List Nat)) :
    copy_bytes recv_chunks = recv_chunks.flatten := by
  suffices h : ∀ acc : List Nat,
      recv_chunks.foldl (fun a c => a ++ c) acc = acc ++ recv_chunks.flatten by
    simpa [copy_bytes] using h []
  induction recv_chunks with
  | nil => intro acc; simp
  | cons c cs ih => intro acc; simp [ih]

theorem find_host_line_no_match (ls : List String)
    (h : ∀ line ∈ ls, ¬((toLowercase line).data.take 5 = "host:".data)) :
    find_host_line ls = .error (.Proxy "No Host header found") := by
  induction ls with
  | nil => rfl
  | cons line rest ih =>
      have h1 := h line (List.mem_cons_self line rest)
      have h2 : ∀ l ∈ rest, ¬((toLowercase l).data.take 5 = "host:".data) :=
        fun l hl => h l (List.mem_cons_of_mem line hl)
      simp [find_host_line, h1, ih h2]

/-! ### Claim theorems -/

/-- C1: for every registry state, `find_service(name, namespace)` returns
`None` when no registered cluster's service list contains a service with that
name and namespace, and when at least one registered cluster does contain
such a service it returns `Some c` for a registered cluster `c` whose service
list contains such a service. -/
theorem find_service_correct (r : Registry) (service_name namespace_ : String) :
    ((∀ info ∈ list_clusters r, ∀ s ∈ info.services,
        ¬(service_matches s service_name namespace_ = true)) →
      find_service r service_name namespace_ = none) ∧
    ((∃ info ∈ list_clusters r, ∃ s ∈ info.services,
        service_matches s service_name namespace_ = true) →
      ∃ c, find_service r service_name namespace_ = some c ∧
        c ∈ list_clusters r ∧
        ∃ s ∈ c.services, service_matches s service_name namespace_ = true) := by
  constructor
  · intro hnone
    rw [find_service_eq_findFirst]
    have hfind : r.find? (fun p => p.2.services.any
        (fun s => service_matches s service_name namespace_)) = none := by
      rw [List.find?_eq_none]
      intro q hq
      simp only [Bool.not_eq_true, List.any_eq_false]
      intro s hs
      have := hnone q.2 (List.mem_map_of_mem Prod.snd hq) s hs
      simpa using this
    rw [hfind]
    rfl
  · rintro ⟨info, hinfo, s, hs, hm⟩
    rw [find_service_eq_findFirst]
    obtain ⟨q, hqmem, hq2⟩ := List.mem_map.mp hinfo
    subst hq2
    have hqp : (fun p : ClusterId × ClusterInfo => p.2.services.any
        (fun s => service_matches s service_name namespace_)) q = true := by
      simp only [List.any_eq_true]
      exact ⟨s, hs, hm⟩
    cases hres : r.find? (fun p => p.2.services.any
        (fun s => service_matches s service_name namespace_)) with
    | none =>
        exact absurd hqp (List.find?_eq_none.mp hres q hqmem)
    | some a =>
        refine ⟨a.2, rfl, List.mem_map_of_mem Prod.snd
          (List.mem_of_find?_eq_some hres), ?_⟩
        have := List.find?_some hres
        simpa [List.any_eq_true] using this

/-- Witness for C1 at a one-cluster registry advertising `web.default`. -/
theorem find_service_correct_witness :
    (∃ info ∈ list_clusters [("cluster-a", infoA)], ∃ s ∈ info.services,
      service_matches s "web" "default" = true) ∧
    (∃ c, find_service [("cluster-a", infoA)] "web" "default" = some c ∧
      c ∈ list_clusters [("cluster-a", infoA)] ∧
      ∃ s ∈ c.services, service_matches s "web" "default" = true) := by
  have h : ∃ info ∈ list_clusters [("cluster-a", infoA)], ∃ s ∈ info.services,
      service_matches s "web" "default" = true := by decide
  exact ⟨h, (find_service_correct [("cluster-a", infoA)] "web" "default").2 h⟩

/-- C2: for every sequence of register_cluster / update_cluster calls,
`get_cluster_info id` after the last call whose `ClusterInfo` has identity
`id` returns exactly the `ClusterInfo` passed to that last call — later calls
for distinct identities never change the entry — and `register_cluster` is
idempotent.  The trailing calls may be any registry operation whose key
differs from `id`, which covers registers and updates for other identities. -/
theorem register_last_write_wins (r : Registry) (ops1 ops2 : List RegistryOp)
    (op : RegistryOp) (info : ClusterInfo)
    (hop : op = .register info ∨ op = .update info)
    (h2 : ∀ o ∈ ops2, o.key ≠ info.id) :
    get_cluster_info (apply_ops r (ops1 ++ op :: ops2)) info.id = some info ∧
    (register_cluster (register_cluster r info).1 info).1 =
      (register_cluster r info).1 := by
  constructor
  · rw [apply_ops_append]
    have hstep : hmGet info.id (apply_op (apply_ops r ops1) op) = some info := by
      rcases hop with h | h <;> subst h <;>
        exact hmGet_hmInsert_self info.id info (apply_ops r ops1)
    show hmGet info.id (apply_ops (apply_op (apply_ops r ops1) op) ops2) = some info
    rw [hmGet_apply_ops_ne info.id ops2 _ h2, hstep]
  · exact hmInsert_idem info.id info r

/-- Witness for C2: register `infoA`, then register the distinct `infoB`;
`infoA` is still the entry for its identity, and re-registering `infoA` is a
no-op. -/
theorem register_last_write_wins_witness :
    get_cluster_info (apply_ops []
      ([] ++ RegistryOp.register infoA :: [RegistryOp.register infoB]))
      infoA.id = some infoA ∧
    (register_cluster (register_cluster [] infoA).1 infoA).1 =
      (register_cluster [] infoA).1 :=
  register_last_write_wins [] [] [RegistryOp.register infoB]
    (RegistryOp.register infoA) infoA (Or.inl rfl) (by decide)

/-- C3 counterexample: with an empty registry — so no registered cluster
advertises the requested service — a connection presenting a Host header is
answered with the fixed HTTP 200 response and `Ok`, not with a
"service not found" error; `find_service` is never consulted. -/
theorem proxy_ignores_registry_cex :
    find_service [] "missing" "default" = none ∧
    handle_tcp_connection [] "GET / HTTP/1.1\r\nHost: missing\r\n\r\n" =
      .ok [echoResponse] := by
  exact ⟨rfl, by decide⟩

/-- C3 amended: `handle_tcp_connection` performs no routing: whenever the
first read parses to a Host header it writes the fixed HTTP 200 response and
returns `Ok`, for every registry state alike (it never consults
`find_service`, never produces a "service not found" error, and never dials
a tunnel). -/
theorem proxy_fixed_response (r r' : Registry) (request host : String)
    (h : extract_host_header request = .ok host) :
    handle_tcp_connection r request = .ok [echoResponse] ∧
    handle_tcp_connection r request = handle_tcp_connection r' request := by
  have hne : request ≠ "" := by
    intro he
    rw [he] at h
    have hempty : extract_host_header "" =
        .error (.Proxy "No Host header found") := rfl
    rw [hempty] at h
    exact Except.noConfusion h
  constructor
  · simp [handle_tcp_connection, hne, h]
  · rfl

/-- Witness for C3's amended theorem at a concrete request, against the empty
registry and a one-cluster registry. -/
theorem proxy_fixed_response_witness :
    extract_host_header "GET / HTTP/1.1\r\nHost: web.default\r\n\r\n" =
      .ok "web.default" ∧
    handle_tcp_connection [] "GET / HTTP/1.1\r\nHost: web.default\r\n\r\n" =
      .ok [echoResponse] ∧
    handle_tcp_connection [] "GET / HTTP/1.1\r\nHost: web.default\r\n\r\n" =
      handle_tcp_connection [("cluster-a", infoA)]
        "GET / HTTP/1.1\r\nHost: web.default\r\n\r\n" := by
  have h : extract_host_header "GET / HTTP/1.1\r\nHost: web.default\r\n\r\n" =
      .ok "web.default" := by decide
  exact ⟨h,
    (proxy_fixed_response [] [("cluster-a", infoA)] _ "web.default" h).1,
    (proxy_fixed_response [] [("cluster-a", infoA)] _ "web.default" h).2⟩

/-- C4: a registration tick whose service discovery fails leaves the whole
registry — in particular the local cluster's entry — exactly as it was, and
the loop goes on to process the remaining ticks unchanged. -/
theorem registration_tick_failure_preserves_registry (r : Registry)
    (cluster_id : ClusterId) (node_id : Nat) (e : Error)
    (rest : List (Except Error (List ServiceInfo))) :
    registration_tick r cluster_id node_id (.error e) = r ∧
    registration_loop r cluster_id node_id (.error e :: rest) =
      registration_loop r cluster_id node_id rest :=
  ⟨rfl, rfl⟩

/-- C5 counterexample: `infoA` and `infoB` both advertise `web.default`;
`infoB` is the most recently updated (registered after `infoA`), yet
`find_service` returns `infoA`. -/
theorem find_service_recency_cex :
    find_service
      (apply_ops [] [RegistryOp.register infoA, RegistryOp.register infoB])
      "web" "default" = some infoA ∧ infoA ≠ infoB := by
  exact ⟨rfl, by decide⟩

/-- C5 amended: when several registered clusters advertise the same
(name, namespace) pair, `find_service` returns the first match in the map's
iteration order — which is unrelated to update recency — and, being a pure
function of the registry state, returns that same cluster on every repeated
call on the unchanged registry. -/
theorem find_service_first_match (r : Registry)
    (service_name namespace_ : String) :
    find_service r service_name namespace_ =
      (r.find? (fun p => p.2.services.any
        (fun s => service_matches s service_name namespace_))).map Prod.snd :=
  find_service_eq_findFirst r service_name namespace_

/-- C6: a connection whose nonempty first read contains no line starting
(case-insensitively) with "host:" is rejected with the proxy error
"No Host header found". -/
theorem no_host_header_rejected (r : Registry) (request : String)
    (hne : request ≠ "")
    (hno : ∀ line ∈ rustLines request,
      ¬((toLowercase line).data.take 5 = "host:".data)) :
    handle_tcp_connection r request = .error (.Proxy "No Host header found") := by
  have hext : extract_host_header request =
      .error (.Proxy "No Host header found") :=
    find_host_line_no_match (rustLines request) hno
  simp [handle_tcp_connection, hne, hext]

/-- Witness for C6 at a request with no Host line. -/
theorem no_host_header_rejected_witness :
    ("GET / HTTP/1.1\r\n\r\n" ≠ "") ∧
    (∀ line ∈ rustLines "GET / HTTP/1.1\r\n\r\n",
      ¬((toLowercase line).data.take 5 = "host:".data)) ∧
    handle_tcp_connection [] "GET / HTTP/1.1\r\n\r\n" =
      .error (.Proxy "No Host header found") :=
  ⟨by decide, by decide,
    no_host_header_rejected [] "GET / HTTP/1.1\r\n\r\n" (by decide) (by decide)⟩

/-- C7: on an accepted mesh connection (the transport supplied a remote node
identity), the handler sends back exactly the concatenation of the bytes read
from the receive half of the one accepted bidirectional stream, then finishes
the stream. -/
theorem mesh_accept_echoes (remote : Nat) (recv_chunks : List (List Nat)) :
    mesh_accept (some remote) recv_chunks =
      some { sent := recv_chunks.flatten, finished := true } := by
  simp [mesh_accept, copy_bytes_eq_join]

/-- C8: every registry state reachable from the empty registry by
register_cluster / update_cluster / remove_cluster calls has at most one
entry per cluster identity. -/
theorem registry_at_most_one_per_identity (ops : List RegistryOp) :
    (registryKeys (apply_ops [] ops)).Nodup :=
  nodup_registryKeys_apply_ops ops [] (by simp [registryKeys])

/-- C9: after `remove_cluster id`, `get_cluster_info id` is `None`, lookups
of every other identity are unchanged, and the call returns `Ok` whether or
not an entry for `id` existed. -/
theorem remove_cluster_spec (r : Registry) (cluster_id : ClusterId) :
    get_cluster_info (remove_cluster r cluster_id).1 cluster_id = none ∧
    (∀ k, k ≠ cluster_id →
      get_cluster_info (remove_cluster r cluster_id).1 k =
        get_cluster_info r k) ∧
    (remove_cluster r cluster_id).2 = Except.ok () :=
  ⟨hmGet_hmRemove_self cluster_id r,
   fun k hk => hmGet_hmRemove_ne k cluster_id r hk,
   rfl⟩

/-- Witness for C9 on a two-cluster registry. -/
theorem remove_cluster_spec_witness :
    get_cluster_info
      (remove_cluster [("cluster-a", infoA), ("cluster-b", infoB)]
        "cluster-a").1 "cluster-a" = none ∧
    get_cluster_info
      (remove_cluster [("cluster-a", infoA), ("cluster-b", infoB)]
        "cluster-a").1 "cluster-b" =
      get_cluster_info [("cluster-a", infoA), ("cluster-b", infoB)]
        "cluster-b" ∧
    (remove_cluster [("cluster-a", infoA), ("cluster-b", infoB)]
      "cluster-a").2 = Except.ok () :=
  ⟨(remove_cluster_spec [("cluster-a", infoA), ("cluster-b", infoB)]
      "cluster-a").1,
   (remove_cluster_spec [("cluster-a", infoA), ("cluster-b", infoB)]
      "cluster-a").2.1 "cluster-b" (by decide),
   (remove_cluster_spec [("cluster-a", infoA), ("cluster-b", infoB)]
      "cluster-a").2.2⟩

/-- C10: a connection whose first read returns zero bytes is answered with
`Ok` and nothing is written back — it is not rejected as lacking routing
metadata. -/
theorem empty_first_read_accepted (r : Registry) :
    handle_tcp_connection r "" = .ok [] := rfl

end IrohMesh
